import Mathlib

/-!
Shallow embedding of the Turing Smart Screen driver
(src/turing_smart_screen.py).

Conventions of the embedding:
- Machine bytes are modelled as Nat values (the Python code stores them in
  bytearrays; call sites keep them in 0..255).
- Each Python method is a pure Lean function from the driver state and the
  arguments to a PyResult: the Python exception raised (if any), the state
  of the object after the call (Python mutations performed before a raise
  are visible afterwards, so the state is returned even on error), and the
  list of device.write calls made, each one a byte list.
- time.time values are modelled as exact rationals; time.sleep d is
  modelled as advancing the clock by at least d (the sleep lower bound),
  which is what the timing-gate argument needs.
- struct.pack with format <H resp. >H on a value v < 65536 produces the
  bytes [v % 256, v / 256] resp. [v / 256, v % 256]; the embedding uses
  those expressions (Python raises struct.error for v outside 16 bits,
  which cannot happen for packed 5-6-5 pixels built from 8-bit channels).
-/

/-- Python exception classes raised by the module. `assertionError` stands
for a failed `assert` statement (the InvalidArgument of the spec),
`turingError` for the base class TuringError, `turingProtocolError` for
TuringProtocolError, `turingNotImplementedError` for
TuringNotImplementedError. -/
inductive PyError where
  | assertionError
  | turingError
  | turingProtocolError
  | turingNotImplementedError
deriving DecidableEq

/-- Class constants of TuringDisplayBase. -/
def ORIENTATION_PORTRAIT : Nat := 0

def ORIENTATION_LANDSCAPE : Nat := 1

def INVERT_X : Nat := 1

def INVERT_Y : Nat := 2

def INVERT_XY : Nat := 3

/-- Native panel width (portrait), class constant WIDTH. -/
def WIDTH : Nat := 320

/-- Native panel height (portrait), class constant HEIGHT. -/
def HEIGHT : Nat := 480

/-- Class constant INTER_BITMAP_DELAY = 0.02 seconds. -/
def INTER_BITMAP_DELAY : ℚ := 1 / 50

abbrev Byte := Nat

/-- An RGB pixel: a triple of 8-bit channel values (r, g, b). -/
abbrev Pixel := Nat × Nat × Nat

/-- The mutable instance state set up in TuringDisplayBase.__init__:
_orientation, _invert, _brightness, _enable, last_bitmap_time. The
default field values are the initial values assigned by __init__. -/
structure DState where
  orientation : Nat := ORIENTATION_PORTRAIT
  invert : Nat := 0
  brightness : Int := 0
  enable : Bool := true
  lastBitmapTime : ℚ := 0
deriving DecidableEq

/-- The state of a freshly constructed driver. -/
def initState : DState := {}

/-- Outcome of one Python method call: the exception raised (none on
success), the object state after the call, and the device.write calls
performed, in order. -/
structure PyResult where
  err : Option PyError
  state : DState
  writes : List (List Byte)
deriving DecidableEq

/-- Property `width`: WIDTH in portrait orientation, HEIGHT otherwise. -/
def DState.width (st : DState) : Nat :=
  if st.orientation = ORIENTATION_PORTRAIT then WIDTH else HEIGHT

/-- Property `height`: HEIGHT in portrait orientation, WIDTH otherwise. -/
def DState.height (st : DState) : Nat :=
  if st.orientation = ORIENTATION_PORTRAIT then HEIGHT else WIDTH

/-- Python range(0, stop, step) for positive step: the multiples of step
below stop, of which there are ceil(stop / step). (Python raises
ValueError when step = 0; the code only reaches this with positive step,
and the theorems assume it.) -/
def pyRangeStep (stop step : Nat) : List Nat :=
  (List.range ((stop + step - 1) / step)).map (fun i => i * step)

/-- TuringDisplayBase.apply_inversion. The branch on _invert mirrors the
if/elif/else chain of the source; the INVERT_Y and INVERT_XY loops walk
`offset` down from height*width by width per row, i.e. row `row` of the
output is the slice at offset (height-1-row)*width, and the final else
branch walks offsets range(0, width*height, width). The coordinate
updates mirror `(y1, y) = (self.height - y, self.height - y1)` and
`(x1, x) = (self.width - x, self.width - x1)`; only the low ends are
returned. The function only reads the state and builds a fresh list from
slices of rgb (Python slicing copies), so it mutates neither the driver
state nor the buffer of the caller. -/
def applyInversion (st : DState) (x y width height : Nat) (rgb : List Pixel) :
    Nat × Nat × Nat × Nat × List Pixel :=
  if st.invert = 0 then (x, y, width, height, rgb)
  else
    let newRgb : List Pixel :=
      if st.invert = INVERT_Y then
        ((List.range height).map
          (fun row => (rgb.drop ((height - 1 - row) * width)).take width)).flatten
      else if st.invert = INVERT_XY then
        ((List.range height).map
          (fun row => ((rgb.drop ((height - 1 - row) * width)).take width).reverse)).flatten
      else
        ((pyRangeStep (width * height) width).map
          (fun offset => ((rgb.drop offset).take width).reverse)).flatten
    let x1 := x + width
    let y1 := y + height
    let y2 := if st.invert = INVERT_Y ∨ st.invert = INVERT_XY then st.height - y1 else y
    let x2 := if st.invert = INVERT_X ∨ st.invert = INVERT_XY then st.width - x1 else x
    (x2, y2, width, height, newRgb)

/-- Variant 1 command opcodes. -/
def CMD_CLEAR_V1 : Byte := 102

def CMD_SCREEN_OFF_V1 : Byte := 108

def CMD_SCREEN_ON_V1 : Byte := 109

def CMD_SET_BRIGHTNESS_V1 : Byte := 110

def CMD_UPDATE_BITMAP_V1 : Byte := 197

/-- Variant 2 command opcodes. -/
def CMD_HELLO : Byte := 0xca

def CMD_SET_ORIENTATION_V2 : Byte := 0xcb

def CMD_UPDATE_BITMAP_V2 : Byte := 0xcc

def CMD_SET_BACKLIGHT_V2 : Byte := 0xcd

def CMD_SET_BRIGHTNESS_V2 : Byte := 0xce

/-- The byte frame built by TuringDisplayVariant1.send_command: the
payload (default five zero bytes, zero-padded on the right to 5 bytes
when shorter) followed by the opcode byte. -/
def frame1 (cmd : Byte) (payload : Option (List Byte)) : List Byte :=
  let p := payload.getD (List.replicate 5 0)
  let p := if p.length < 5 then p ++ List.replicate (5 - p.length) 0 else p
  p ++ [cmd]

/-- The byte frame built by TuringDisplayVariant2.send_command: the opcode
byte, then the payload (default eight zero bytes, zero-padded on the
right to 8 bytes when shorter), then the opcode byte again. -/
def frame2 (cmd : Byte) (payload : Option (List Byte)) : List Byte :=
  let p := payload.getD (List.replicate 8 0)
  let p := if p.length < 8 then p ++ List.replicate (8 - p.length) 0 else p
  (cmd :: p) ++ [cmd]

/-- The timing gate shared by both send_command implementations:
`elapsed = time.time() - self.last_bitmap_time; if elapsed <
self.inter_bitmap_delay: time.sleep(self.inter_bitmap_delay - elapsed)`.
Given the current clock `now`, the recorded timestamp `last` and the
configured delay, this is the earliest clock value at which the
subsequent device.write can run (time.sleep blocks for at least its
argument). -/
def gatedSendTime (now last delay : ℚ) : ℚ :=
  let elapsed := now - last
  if elapsed < delay then now + (delay - elapsed) else now

/-- The 5-6-5 packed pixel value `(r >> 3) << 11 | (g >> 2) << 5 | (b >> 3)`
computed in both update_region loops. -/
def pack565 (c : Pixel) : Nat :=
  ((c.1 >>> 3) <<< 11) ||| ((c.2.1 >>> 2) <<< 5) ||| (c.2.2 >>> 3)

/-- struct.pack with format <H: the packed pixel value as two bytes,
little endian (variant 1). -/
def packLE (c : Pixel) : List Byte :=
  [pack565 c % 256, pack565 c / 256]

/-- struct.pack with format >H: the packed pixel value as two bytes,
big endian (variant 2). -/
def packBE (c : Pixel) : List Byte :=
  [pack565 c / 256, pack565 c % 256]

/-- flush_size = self.WIDTH * 8, the pixel count per write chunk of
update_region (the class constant WIDTH, not the orientation-dependent
property). -/
def flushSize : Nat := WIDTH * 8

/-- TuringDisplayVariant1.brightness: assert 0 <= scale < 256, record the
scale, then send CMD_SET_BRIGHTNESS with payload [255 - scale]. -/
def brightness1 (st : DState) (scale : Int) : PyResult :=
  if ¬ (0 ≤ scale ∧ scale < 256) then ⟨some .assertionError, st, []⟩
  else
    ⟨none, { st with brightness := scale },
      [frame1 CMD_SET_BRIGHTNESS_V1 (some [(255 - scale).toNat])]⟩

/-- TuringDisplayVariant2.brightness: assert 0 <= scale < 256, record the
scale, then send CMD_SET_BRIGHTNESS with payload [scale] only when the
display is currently enabled. -/
def brightness2 (st : DState) (scale : Int) : PyResult :=
  if ¬ (0 ≤ scale ∧ scale < 256) then ⟨some .assertionError, st, []⟩
  else
    ⟨none, { st with brightness := scale },
      if st.enable then [frame2 CMD_SET_BRIGHTNESS_V2 (some [scale.toNat])] else []⟩

/-- TuringDisplayVariant2.enable: when the requested state differs from
the current one, send CMD_SET_BRIGHTNESS with the remembered brightness
(enabling) or 0 (disabling); then record the state. The payload byte is
self._brightness, an Int kept in 0..255 by the brightness method, hence
the toNat conversion. -/
def enable2 (st : DState) (state : Bool) : PyResult :=
  let writes :=
    if st.enable ≠ state then
      if state then [frame2 CMD_SET_BRIGHTNESS_V2 (some [st.brightness.toNat])]
      else [frame2 CMD_SET_BRIGHTNESS_V2 (some [0])]
    else []
  ⟨none, { st with enable := state }, writes⟩

/-- TuringDisplayBase.orientation (inherited unchanged by variant 1):
assign self._orientation = state, then raise TuringNotImplementedError. -/
def orientationBase (st : DState) (state : Nat) : PyResult :=
  ⟨some .turingNotImplementedError, { st with orientation := state }, []⟩

/-- TuringDisplayVariant1.update_region. The assert on the buffer length
comes first (nothing is written or mutated when it fails); then
apply_inversion, the CMD_UPDATE_BITMAP frame with the packed 20-bit
coordinate payload, then the pixel data in chunks of flush_size pixels
(each chunk one device.write of the concatenated little-endian packed
pixels), and finally last_bitmap_time = time.time(), whose value is the
parameter tEnd. -/
def updateRegion1 (st : DState) (x y width height : Nat) (rgb : List Pixel)
    (tEnd : ℚ) : PyResult :=
  if ¬ (width * height ≤ rgb.length) then ⟨some .assertionError, st, []⟩
  else
    let t := applyInversion st x y width height rgb
    let x := t.1
    let y := t.2.1
    let width := t.2.2.1
    let height := t.2.2.2.1
    let rgb := t.2.2.2.2
    let x1 := x + width - 1
    let y1 := y + height - 1
    let cmd := frame1 CMD_UPDATE_BITMAP_V1 (some
      [x >>> 2,
       ((x &&& 3) <<< 6) ||| (y >>> 4),
       ((y &&& 15) <<< 4) ||| (x1 >>> 6),
       ((x1 &&& 63) <<< 2) ||| (y1 >>> 8),
       y1 &&& 255])
    let chunks := (pyRangeStep (width * height) flushSize).map
      (fun start => (((rgb.drop start).take flushSize).map packLE).flatten)
    ⟨none, { st with lastBitmapTime := tEnd }, cmd :: chunks⟩

/-- TuringDisplayVariant2.update_region: as variant 1 but the coordinate
payload is the four coordinates as big-endian byte pairs across 8 bytes,
and the pixels are packed big endian. -/
def updateRegion2 (st : DState) (x y width height : Nat) (rgb : List Pixel)
    (tEnd : ℚ) : PyResult :=
  if ¬ (width * height ≤ rgb.length) then ⟨some .assertionError, st, []⟩
  else
    let t := applyInversion st x y width height rgb
    let x := t.1
    let y := t.2.1
    let width := t.2.2.1
    let height := t.2.2.2.1
    let rgb := t.2.2.2.2
    let x1 := x + width - 1
    let y1 := y + height - 1
    let cmd := frame2 CMD_UPDATE_BITMAP_V2 (some
      [(x >>> 8) &&& 255, x &&& 255,
       (y >>> 8) &&& 255, y &&& 255,
       (x1 >>> 8) &&& 255, x1 &&& 255,
       (y1 >>> 8) &&& 255, y1 &&& 255])
    let chunks := (pyRangeStep (width * height) flushSize).map
      (fun start => (((rgb.drop start).take flushSize).map packBE).flatten)
    ⟨none, { st with lastBitmapTime := tEnd }, cmd :: chunks⟩

/-- The 5-byte identification token bytearray(b'HELLO'). -/
def HELLO_TOKEN : List Byte := [72, 69, 76, 76, 79]

/-- TuringDisplayVariant2.__init__ after the base initialisation: send
CMD_HELLO framed around the HELLO token, read 10 bytes from the device
(the parameter `response` is what device.read(10) returned, possibly
short), then check the length, the framing bytes and the echoed token.
The first two checks raise TuringProtocolError; the token-echo check
raises the plain base TuringError (source line 402). -/
def init2 (response : List Byte) : PyResult :=
  let helloWrite := frame2 CMD_HELLO (some HELLO_TOKEN)
  if response.length ≠ 10 then
    ⟨some .turingProtocolError, initState, [helloWrite]⟩
  else if response.head? ≠ some CMD_HELLO ∨ response.getLast? ≠ some CMD_HELLO then
    ⟨some .turingProtocolError, initState, [helloWrite]⟩
  else if (response.drop 1).take 5 ≠ HELLO_TOKEN then
    ⟨some .turingError, initState, [helloWrite]⟩
  else
    ⟨none, initState, [helloWrite]⟩

/-- The buffer seen as its list of rows: row i is the slice of w pixels
starting at offset i*w, for i < h. Used to state the row-reversal
properties of apply_inversion. -/
def rowsOf (l : List Pixel) (w h : Nat) : List (List Pixel) :=
  (List.range h).map (fun i => (l.drop (i * w)).take w)

/-! Helper lemmas about ranges, rows and chunking. -/

lemma map_range_reverse {α : Type} (f : Nat → α) (n : Nat) :
    ((List.range n).map f).reverse = (List.range n).map (fun i => f (n - 1 - i)) := by
  rw [← List.map_reverse]
  rw [show (List.range n).reverse = (List.range n).map (fun i => n - 1 - i) from ?_]
  · rw [List.map_map]
    rfl
  · conv_lhs => rw [List.range_eq_range']
    rw [List.reverse_range']
    congr 1
    funext i
    omega

lemma pyRangeStep_mul {w : Nat} (hw : 0 < w) (n : Nat) :
    pyRangeStep (w * n) w = (List.range n).map (fun i => i * w) := by
  unfold pyRangeStep
  have hc : (w * n + w - 1) / w = n := by
    have h1 : w * n + w - 1 = (w - 1) + w * n := by omega
    rw [h1, Nat.add_mul_div_left _ _ hw, Nat.div_eq_of_lt (by omega)]
    omega
  rw [hc]

lemma pyRangeStep_cons {n step : Nat} (hn : 0 < n) (hs : 0 < step) :
    pyRangeStep n step = 0 :: (pyRangeStep (n - step) step).map (fun s => s + step) := by
  unfold pyRangeStep
  have hc : (n + step - 1) / step = (n - step + step - 1) / step + 1 := by
    have e1 : n + step - 1 = (n - 1) + step := by omega
    rw [e1, Nat.add_div_right _ hs]
    rcases Nat.le_total step n with h | h
    · have e2 : n - step + step - 1 = n - 1 := by omega
      rw [e2]
    · have e2 : n - step = 0 := by omega
      rw [e2]
      rw [Nat.div_eq_of_lt (by omega), Nat.div_eq_of_lt (by omega)]
  rw [hc, List.range_succ_eq_map]
  simp only [List.map_cons, List.map_map, Nat.zero_mul]
  congr 1
  congr 1
  funext i
  simp only [Function.comp_apply]
  rw [Nat.succ_mul, Nat.add_comm]

lemma rowsOf_succ (l : List Pixel) (w n : Nat) :
    rowsOf l w (n + 1) = l.take w :: rowsOf (l.drop w) w n := by
  unfold rowsOf
  rw [List.range_succ_eq_map]
  simp only [List.map_cons, List.map_map, Nat.zero_mul, List.drop_zero]
  congr 1
  congr 1
  funext i
  simp only [Function.comp_apply]
  rw [List.drop_drop]
  congr 2
  rw [Nat.succ_mul, Nat.add_comm]

lemma rowsOf_length (l : List Pixel) (w n : Nat) : (rowsOf l w n).length = n := by
  simp [rowsOf]

lemma rowsOf_mem_length {l : List Pixel} {w n : Nat} (hl : w * n ≤ l.length) :
    ∀ r ∈ rowsOf l w n, r.length = w := by
  intro r hr
  unfold rowsOf at hr
  simp only [List.mem_map, List.mem_range] at hr
  obtain ⟨i, hi, rfl⟩ := hr
  rw [List.length_take, List.length_drop]
  have h1 : (i + 1) * w ≤ n * w := Nat.mul_le_mul_right w hi
  have h2 : (i + 1) * w = i * w + w := Nat.succ_mul i w
  have h3 : w * n = n * w := Nat.mul_comm w n
  omega

lemma flatten_rowsOf {w : Nat} :
    ∀ (n : Nat) (l : List Pixel), w * n ≤ l.length →
      (rowsOf l w n).flatten = l.take (w * n) := by
  intro n
  induction n with
  | zero =>
    intro l _
    simp [rowsOf]
  | succ m ih =>
    intro l hl
    have hlen : w * (m + 1) = w + w * m := by rw [Nat.mul_succ]; omega
    rw [rowsOf_succ, List.flatten_cons,
      ih (l.drop w) (by rw [List.length_drop]; omega),
      hlen, List.take_add]

lemma rowsOf_flatten {w : Nat} :
    ∀ (rows : List (List Pixel)), (∀ r ∈ rows, r.length = w) →
      rowsOf rows.flatten w rows.length = rows := by
  intro rows
  induction rows with
  | nil =>
    intro _
    simp [rowsOf]
  | cons r rs ih =>
    intro hws
    have hr : r.length = w := hws r (List.mem_cons_self r rs)
    have ht : (r ++ rs.flatten).take w = r := by
      rw [← hr]
      exact List.take_left r rs.flatten
    have hd : (r ++ rs.flatten).drop w = rs.flatten := by
      rw [← hr]
      exact List.drop_left r rs.flatten
    show rowsOf (r ++ rs.flatten) w (rs.length + 1) = r :: rs
    rw [rowsOf_succ, ht, hd, ih (fun q hq => hws q (List.mem_cons_of_mem _ hq))]

lemma pyChunks_flatten {β : Type} (g : Pixel → List β) {step : Nat} (hs : 0 < step) :
    ∀ (fuel : Nat) (l : List Pixel), l.length ≤ fuel →
      ((pyRangeStep l.length step).map
        (fun s => (((l.drop s).take step).map g).flatten)).flatten = (l.map g).flatten := by
  intro fuel
  induction fuel with
  | zero =>
    intro l hl
    have hnil : l = [] := List.length_eq_zero.mp (Nat.le_zero.mp hl)
    subst hnil
    have h0 : (0 + step - 1) / step = 0 := Nat.div_eq_of_lt (by omega)
    simp [pyRangeStep, h0]
  | succ m ih =>
    intro l hl
    rcases eq_or_ne l [] with rfl | hne
    · have h0 : (0 + step - 1) / step = 0 := Nat.div_eq_of_lt (by omega)
      simp [pyRangeStep, h0]
    · have hpos : 0 < l.length := List.length_pos.mpr hne
      rw [pyRangeStep_cons hpos hs, List.map_cons, List.flatten_cons, List.map_map,
        List.drop_zero]
      have hf : ((fun s => (((l.drop s).take step).map g).flatten) ∘ (fun s => s + step))
          = (fun s => ((((l.drop step).drop s).take step).map g).flatten) := by
        funext s
        simp only [Function.comp_apply]
        rw [List.drop_drop, Nat.add_comm s step]
      rw [hf]
      have hlen : (l.drop step).length = l.length - step := List.length_drop step l
      rw [← hlen, ih (l.drop step) (by rw [hlen]; omega),
        ← List.flatten_append, ← List.map_append, List.take_append_drop]

/-! Per-mode characterizations of apply_inversion. -/

lemma applyInversion_inv0 (st : DState) (x y w h : Nat) (rgb : List Pixel)
    (hinv : st.invert = 0) :
    applyInversion st x y w h rgb = (x, y, w, h, rgb) := by
  simp [applyInversion, hinv]

lemma applyInversion_invX (st : DState) (x y w h : Nat) (rgb : List Pixel)
    (hw : 0 < w) (hinv : st.invert = INVERT_X) :
    applyInversion st x y w h rgb
      = (st.width - (x + w), y, w, h, ((rowsOf rgb w h).map List.reverse).flatten) := by
  simp only [applyInversion, hinv, INVERT_X, INVERT_Y, INVERT_XY]
  norm_num
  rw [Nat.mul_comm w h] at *
  rw [show h * w = w * h from Nat.mul_comm h w, pyRangeStep_mul hw, List.map_map]
  unfold rowsOf
  rw [List.map_map]
  rfl

lemma applyInversion_invY (st : DState) (x y w h : Nat) (rgb : List Pixel)
    (hinv : st.invert = INVERT_Y) :
    applyInversion st x y w h rgb
      = (x, st.height - (y + h), w, h, ((rowsOf rgb w h).reverse).flatten) := by
  simp only [applyInversion, hinv, INVERT_X, INVERT_Y, INVERT_XY]
  norm_num
  unfold rowsOf
  rw [map_range_reverse]

lemma applyInversion_invXY (st : DState) (x y w h : Nat) (rgb : List Pixel)
    (hinv : st.invert = INVERT_XY) :
    applyInversion st x y w h rgb
      = (st.width - (x + w), st.height - (y + h), w, h,
        (((rowsOf rgb w h).map List.reverse).reverse).flatten) := by
  simp only [applyInversion, hinv, INVERT_X, INVERT_Y, INVERT_XY]
  norm_num
  unfold rowsOf
  rw [List.map_map, map_range_reverse]
  rfl

/-! Claim theorems. -/

/-- C1 (code bug): variant 2 construction sends the hello frame and reads
10 bytes. A short response and bad framing bytes raise
TuringProtocolError as the spec says, and a correct echo succeeds, but a
10-byte well framed response whose middle 5 bytes do not echo the token
raises the generic base TuringError (source line 402), not the
TuringProtocolError the spec requires: the ProtocolMismatch kind is
wrong in exactly that third case. -/
theorem c1_variant2_hello_echo_error_kind :
    (init2 [0xca, 0, 0, 0, 0, 0, 0, 0, 0, 0xca]).err = some PyError.turingError
    ∧ PyError.turingError ≠ PyError.turingProtocolError
    ∧ (init2 [0xca, 0, 0]).err = some PyError.turingProtocolError
    ∧ (init2 [0, 72, 69, 76, 76, 79, 0, 0, 0, 9]).err = some PyError.turingProtocolError
    ∧ (init2 [0xca, 72, 69, 76, 76, 79, 0, 0, 0, 0xca]).err = none
    ∧ (init2 [0xca, 0, 0, 0, 0, 0, 0, 0, 0, 0xca]).writes
        = [[0xca, 72, 69, 76, 76, 79, 0, 0, 0, 0xca]] := by
  decide

/-- C2: update_region on either variant, given fewer than width*height
pixels, raises the assertion (InvalidArgument), performs no write and
leaves the driver state unchanged. -/
theorem c2_update_region_short_buffer (st : DState) (x y w h : Nat)
    (rgb : List Pixel) (tEnd : ℚ) (hshort : rgb.length < w * h) :
    updateRegion1 st x y w h rgb tEnd = ⟨some PyError.assertionError, st, []⟩
    ∧ updateRegion2 st x y w h rgb tEnd = ⟨some PyError.assertionError, st, []⟩ := by
  have hc : ¬ (w * h ≤ rgb.length) := by omega
  constructor
  · unfold updateRegion1
    rw [if_pos hc]
  · unfold updateRegion2
    rw [if_pos hc]

/-- C2 witness: a 4 by 4 region with only 10 pixels supplied fails on
both variants with no writes and no state change. -/
theorem c2_update_region_short_buffer_witness :
    (List.replicate 10 ((0, 0, 0) : Pixel)).length < 4 * 4
    ∧ (updateRegion1 initState 0 0 4 4 (List.replicate 10 (0, 0, 0)) 0
          = ⟨some PyError.assertionError, initState, []⟩
        ∧ updateRegion2 initState 0 0 4 4 (List.replicate 10 (0, 0, 0)) 0
          = ⟨some PyError.assertionError, initState, []⟩) :=
  ⟨by decide,
    c2_update_region_short_buffer initState 0 0 4 4 (List.replicate 10 (0, 0, 0)) 0
      (by decide)⟩

/-- C3 counterexample: the claim says the variant 1 frame is a 7-byte
sequence; the frame the code builds for the clear command has 6 bytes
(5 payload bytes plus the single trailing opcode byte). -/
theorem c3_variant1_frame_seven_byte_counterexample :
    (frame1 CMD_CLEAR_V1 (some [])).length ≠ 7 := by
  decide

/-- C3 amended: for every command and payload of at most 5 bytes, the
variant 1 frame is the payload zero-padded to 5 bytes followed by the
1-byte opcode, 6 bytes in total. -/
theorem c3_variant1_frame_amended (cmd : Byte) (p : List Byte) (hp : p.length ≤ 5) :
    frame1 cmd (some p) = (p ++ List.replicate (5 - p.length) 0) ++ [cmd]
    ∧ (frame1 cmd (some p)).length = 6 := by
  unfold frame1
  simp only [Option.getD_some]
  rcases Nat.lt_or_ge p.length 5 with hlt | hge
  · rw [if_pos hlt]
    refine ⟨rfl, ?_⟩
    simp only [List.length_append, List.length_replicate, List.length_cons,
      List.length_nil]
    omega
  · have h5 : p.length = 5 := le_antisymm hp hge
    rw [if_neg (by omega)]
    constructor
    · rw [h5]
      simp
    · simp [h5]

/-- C3 witness: the amended statement at the set-brightness command with
the 1-byte payload 127. -/
theorem c3_variant1_frame_amended_witness :
    frame1 CMD_SET_BRIGHTNESS_V1 (some [127])
      = (([127] : List Byte) ++ List.replicate (5 - ([127] : List Byte).length) 0)
        ++ [CMD_SET_BRIGHTNESS_V1]
    ∧ (frame1 CMD_SET_BRIGHTNESS_V1 (some [127])).length = 6 :=
  c3_variant1_frame_amended CMD_SET_BRIGHTNESS_V1 [127] (by decide)

/-- C10: the base orientation method (inherited by variant 1) assigns the
requested orientation to the state and then raises
TuringNotImplementedError, so after the failed call the width and height
accessors report the dimensions of the requested orientation: 480 by 320
after a failed orientation(Landscape). The failure is not atomic with
respect to state. -/
theorem c10_orientation_state_not_atomic (st : DState) (s : Nat) :
    (orientationBase st s).err = some PyError.turingNotImplementedError
    ∧ (orientationBase st s).writes = []
    ∧ (orientationBase st s).state.orientation = s
    ∧ (orientationBase st ORIENTATION_LANDSCAPE).state.width = 480
    ∧ (orientationBase st ORIENTATION_LANDSCAPE).state.height = 320 := by
  refine ⟨rfl, rfl, rfl, ?_, ?_⟩ <;>
    simp [orientationBase, DState.width, DState.height, ORIENTATION_LANDSCAPE,
      ORIENTATION_PORTRAIT, WIDTH, HEIGHT]

/-- C8: on either variant, brightness(scale) for scale outside 0..255
raises the assertion (InvalidArgument) with no write and no state
change; for scale in range, variant 1 transmits a set-brightness frame
whose first payload byte is 255 - scale. -/
theorem c8_brightness_range_and_inversion (st : DState) (scale : Int) :
    (¬ (0 ≤ scale ∧ scale < 256) →
      brightness1 st scale = ⟨some PyError.assertionError, st, []⟩
      ∧ brightness2 st scale = ⟨some PyError.assertionError, st, []⟩)
    ∧ (0 ≤ scale → scale < 256 →
      (brightness1 st scale).writes
        = [frame1 CMD_SET_BRIGHTNESS_V1 (some [(255 - scale).toNat])]
      ∧ ((brightness1 st scale).writes.headD []).headD 0 = (255 - scale).toNat) := by
  constructor
  · intro hbad
    constructor
    · unfold brightness1
      rw [if_pos hbad]
    · unfold brightness2
      rw [if_pos hbad]
  · intro h0 h1
    have hok : ¬ ¬ (0 ≤ scale ∧ scale < 256) := not_not_intro ⟨h0, h1⟩
    constructor
    · unfold brightness1
      rw [if_neg hok]
    · unfold brightness1
      rw [if_neg hok]
      simp [frame1]

/-- C8 witness: brightness(256) and brightness(-1) fail on both variants;
brightness(128) on variant 1 transmits first payload byte 127. -/
theorem c8_brightness_range_and_inversion_witness :
    brightness1 initState 256 = ⟨some PyError.assertionError, initState, []⟩
    ∧ brightness2 initState (-1) = ⟨some PyError.assertionError, initState, []⟩
    ∧ ((brightness1 initState 128).writes.headD []).headD 0 = 127 := by
  refine ⟨((c8_brightness_range_and_inversion initState 256).1 (by decide)).1,
    ((c8_brightness_range_and_inversion initState (-1)).1 (by decide)).2, ?_⟩
  have h := ((c8_brightness_range_and_inversion initState 128).2 (by decide)
    (by decide)).2
  exact h.trans (by decide)

/-- C7: on variant 2, brightness(scale) in range always records the scale
in state but writes a set-brightness frame only when the display is
enabled; enable(false) from the enabled state writes payload 0 and
enable(true) from the disabled state writes the remembered brightness;
enable with the current state writes nothing, so enable(false) twice
writes at most one frame; and brightness(200), enable(false),
enable(true) ends with a transmitted brightness payload of 200. -/
theorem c7_variant2_brightness_enable (st : DState) (scale : Int) :
    (0 ≤ scale → scale < 256 →
      (brightness2 st scale).err = none
      ∧ (brightness2 st scale).state.brightness = scale
      ∧ (brightness2 st scale).writes
          = if st.enable then [frame2 CMD_SET_BRIGHTNESS_V2 (some [scale.toNat])]
            else [])
    ∧ (st.enable = true →
        (enable2 st false).writes = [frame2 CMD_SET_BRIGHTNESS_V2 (some [0])])
    ∧ (st.enable = false →
        (enable2 st true).writes
          = [frame2 CMD_SET_BRIGHTNESS_V2 (some [st.brightness.toNat])])
    ∧ (∀ b : Bool, st.enable = b → (enable2 st b).writes = [])
    ∧ ((enable2 st false).writes.length
        + (enable2 (enable2 st false).state false).writes.length ≤ 1)
    ∧ (enable2 (enable2 (brightness2 st 200).state false).state true).writes
        = [frame2 CMD_SET_BRIGHTNESS_V2 (some [200])] := by
  refine ⟨?_, ?_, ?_, ?_, ?_, ?_⟩
  · intro h0 h1
    have hok : ¬ ¬ (0 ≤ scale ∧ scale < 256) := not_not_intro ⟨h0, h1⟩
    unfold brightness2
    rw [if_neg hok]
    exact ⟨rfl, rfl, rfl⟩
  · intro he
    simp [enable2, he]
  · intro he
    simp [enable2, he]
  · intro b hb
    simp [enable2, hb]
  · cases hE : st.enable <;> simp [enable2, hE]
  · have hok : ¬ ¬ ((0 : Int) ≤ 200 ∧ (200 : Int) < 256) := by decide
    unfold brightness2
    rw [if_neg hok]
    simp [enable2]

/-- C7 witness: from the initial state (enabled), brightness(10) writes
the frame with payload 10, enable(false) writes the frame with payload
0, enable(false) twice writes at most one frame, and the
brightness(200), enable(false), enable(true) sequence ends with payload
200. -/
theorem c7_variant2_brightness_enable_witness :
    (brightness2 initState 10).writes = [frame2 CMD_SET_BRIGHTNESS_V2 (some [10])]
    ∧ (enable2 initState false).writes = [frame2 CMD_SET_BRIGHTNESS_V2 (some [0])]
    ∧ (enable2 (enable2 (brightness2 initState 200).state false).state true).writes
        = [frame2 CMD_SET_BRIGHTNESS_V2 (some [200])] := by
  refine ⟨?_, (c7_variant2_brightness_enable initState 10).2.1 rfl,
    (c7_variant2_brightness_enable initState 10).2.2.2.2.2⟩
  have h := ((c7_variant2_brightness_enable initState 10).1 (by decide) (by decide)).2.2
  simpa [initState] using h

/-- C9: the timing gate of send_command guarantees that the device.write
of a command frame happens no earlier than last_bitmap_time plus the
inter-bitmap delay (when the elapsed time is below the delay the code
sleeps for exactly the remainder, and time.sleep blocks for at least its
argument); and update_region on either variant records the clock value
taken after the pixel transfer as the new last_bitmap_time. -/
theorem c9_timing_gate (now last delay : ℚ) (st : DState) (x y w h : Nat)
    (rgb : List Pixel) (tEnd : ℚ) :
    last + delay ≤ gatedSendTime now last delay
    ∧ (w * h ≤ rgb.length →
        (updateRegion1 st x y w h rgb tEnd).state.lastBitmapTime = tEnd
        ∧ (updateRegion2 st x y w h rgb tEnd).state.lastBitmapTime = tEnd) := by
  constructor
  · unfold gatedSendTime
    by_cases hlt : now - last < delay
    · rw [if_pos hlt]
      linarith
    · rw [if_neg hlt]
      have := not_lt.mp hlt
      linarith
  · intro hlen
    constructor
    · unfold updateRegion1
      rw [if_neg (by omega)]
    · unfold updateRegion2
      rw [if_neg (by omega)]

/-- C9 witness: at concrete times, the gated write time is at least the
recorded timestamp plus the delay, and both update_region variants
record the post-transfer clock value 5. -/
theorem c9_timing_gate_witness :
    (0 : ℚ) + 1 / 50 ≤ gatedSendTime 3 0 (1 / 50)
    ∧ (updateRegion1 initState 0 0 1 1 [(0, 0, 0)] 5).state.lastBitmapTime = 5
    ∧ (updateRegion2 initState 0 0 1 1 [(0, 0, 0)] 5).state.lastBitmapTime = 5 := by
  obtain ⟨h1, h2⟩ := c9_timing_gate 3 0 (1 / 50) initState 0 0 1 1 [(0, 0, 0)] 5
  obtain ⟨h3, h4⟩ := h2 (by decide)
  exact ⟨h1, h3, h4⟩

/-- C4: for a region inside the display bounds and a buffer of at least
width*height pixels, apply_inversion keeps the width and height (each
output row has width pixels and there are height rows); with a vertical
flip (InvertY or InvertXY) the row order is reversed and the vertical
span becomes (display_height - (y+height), display_height - y); with a
horizontal flip (InvertX or InvertXY) every row is reversed and the
horizontal span becomes (display_width - (x+width), display_width - x).
The embedding of apply_inversion is a pure function of the state and the
arguments, so it mutates neither the driver state nor the buffer. -/
theorem c4_apply_inversion_characterization (st : DState) (x y w h : Nat)
    (rgb : List Pixel) (hw : 0 < w) (_hh : 0 < h)
    (hx : x + w ≤ st.width) (hy : y + h ≤ st.height) (hlen : w * h ≤ rgb.length) :
    (st.invert = 0 → applyInversion st x y w h rgb = (x, y, w, h, rgb))
    ∧ (st.invert = INVERT_X →
        applyInversion st x y w h rgb
          = (st.width - (x + w), y, w, h, ((rowsOf rgb w h).map List.reverse).flatten)
        ∧ st.width - (x + w) + w = st.width - x)
    ∧ (st.invert = INVERT_Y →
        applyInversion st x y w h rgb
          = (x, st.height - (y + h), w, h, ((rowsOf rgb w h).reverse).flatten)
        ∧ st.height - (y + h) + h = st.height - y)
    ∧ (st.invert = INVERT_XY →
        applyInversion st x y w h rgb
          = (st.width - (x + w), st.height - (y + h), w, h,
            (((rowsOf rgb w h).map List.reverse).reverse).flatten)
        ∧ st.width - (x + w) + w = st.width - x
        ∧ st.height - (y + h) + h = st.height - y)
    ∧ (∀ r ∈ rowsOf rgb w h, r.length = w)
    ∧ (rowsOf rgb w h).length = h :=
  ⟨applyInversion_inv0 st x y w h rgb,
    fun hi => ⟨applyInversion_invX st x y w h rgb hw hi, by omega⟩,
    fun hi => ⟨applyInversion_invY st x y w h rgb hi, by omega⟩,
    fun hi => ⟨applyInversion_invXY st x y w h rgb hi, by omega, by omega⟩,
    rowsOf_mem_length hlen,
    rowsOf_length rgb w h⟩

/-- C4 witness: InvertXY on a 2 by 2 region at (1, 2) of the portrait
display reverses the rows and each row (point reflection of the four
pixels) and moves the region to (317, 476). -/
theorem c4_apply_inversion_characterization_witness :
    applyInversion ({ invert := 3 } : DState) 1 2 2 2
        [(1, 0, 0), (2, 0, 0), (3, 0, 0), (4, 0, 0)]
      = (317, 476, 2, 2, [(4, 0, 0), (3, 0, 0), (2, 0, 0), (1, 0, 0)]) := by
  have h := (c4_apply_inversion_characterization ({ invert := 3 } : DState) 1 2 2 2
    [(1, 0, 0), (2, 0, 0), (3, 0, 0), (4, 0, 0)] (by decide) (by decide) (by decide)
    (by decide) (by decide)).2.2.2.1 rfl
  exact h.1.trans (by rfl)

/-- C5: for a rectangle inside the display bounds and a buffer of exactly
width*height pixels, apply_inversion with mode 0 (None) is the identity
on (x, y, width, height, pixels), and applying apply_inversion with mode
InvertXY to its own output returns the original (x, y, width, height,
pixels). -/
theorem c5_apply_inversion_identity_involution (st : DState) (x y w h : Nat)
    (rgb : List Pixel) (_hw : 0 < w) (_hh : 0 < h)
    (hx : x + w ≤ st.width) (hy : y + h ≤ st.height) (hlen : rgb.length = w * h) :
    (st.invert = 0 → applyInversion st x y w h rgb = (x, y, w, h, rgb))
    ∧ (st.invert = INVERT_XY →
        applyInversion st (applyInversion st x y w h rgb).1
          (applyInversion st x y w h rgb).2.1
          (applyInversion st x y w h rgb).2.2.1
          (applyInversion st x y w h rgb).2.2.2.1
          (applyInversion st x y w h rgb).2.2.2.2
          = (x, y, w, h, rgb)) := by
  refine ⟨applyInversion_inv0 st x y w h rgb, fun hi => ?_⟩
  rw [applyInversion_invXY st x y w h rgb hi]
  dsimp only
  rw [applyInversion_invXY st _ _ _ _ _ hi]
  have hrows_mem : ∀ r ∈ rowsOf rgb w h, r.length = w :=
    rowsOf_mem_length (by omega)
  have hrowsN : (rowsOf rgb w h).length = h := rowsOf_length rgb w h
  have hrows1_mem :
      ∀ r ∈ ((rowsOf rgb w h).map List.reverse).reverse, r.length = w := by
    intro r hr
    rw [List.mem_reverse] at hr
    obtain ⟨q, hq, rfl⟩ := List.mem_map.mp hr
    rw [List.length_reverse]
    exact hrows_mem q hq
  have hP : rowsOf (((rowsOf rgb w h).map List.reverse).reverse).flatten w h
      = ((rowsOf rgb w h).map List.reverse).reverse := by
    have hrf := rowsOf_flatten ((rowsOf rgb w h).map List.reverse).reverse hrows1_mem
    rwa [List.length_reverse, List.length_map, hrowsN] at hrf
  have hpix :
      (((rowsOf (((rowsOf rgb w h).map List.reverse).reverse).flatten w h).map
        List.reverse).reverse).flatten = rgb := by
    rw [hP, ← List.map_reverse, List.reverse_reverse, List.map_map]
    have hid : (rowsOf rgb w h).map (List.reverse ∘ List.reverse) = rowsOf rgb w h := by
      simp [Function.comp_def]
    rw [hid, flatten_rowsOf h rgb (by omega), ← hlen, List.take_length]
  simp only [Prod.mk.injEq]
  exact ⟨by omega, by omega, trivial, trivial, hpix⟩

/-- C5 witness: with InvertXY on a 1 by 2 region at the origin, applying
apply_inversion twice returns the original region and pixels. -/
theorem c5_apply_inversion_identity_involution_witness :
    applyInversion ({ invert := 3 } : DState) 319 478 1 2 [(8, 9, 10), (5, 6, 7)]
      = (0, 0, 1, 2, [(5, 6, 7), (8, 9, 10)]) := by
  have h := (c5_apply_inversion_identity_involution ({ invert := 3 } : DState)
    0 0 1 2 [(5, 6, 7), (8, 9, 10)] (by decide) (by decide) (by decide) (by decide)
    (by decide)).2 rfl
  exact h

/-- C6: for a region update of exactly width*height pixels (inversion
off, so the transmitted buffer is the supplied row-major buffer), the
bytes written after the update-bitmap command frame are the
concatenation, pixel by pixel in row-major order, of the packed 5-6-5
value serialized little endian on variant 1 and big endian on variant 2;
in particular the concatenation over the write chunks equals the flat
per-pixel concatenation, independent of the chunking. -/
theorem c6_pixel_wire_format (st : DState) (x y w h : Nat) (rgb : List Pixel)
    (tEnd : ℚ) (hinv : st.invert = 0) (hlen : rgb.length = w * h) :
    ((updateRegion1 st x y w h rgb tEnd).writes.drop 1).flatten
        = (rgb.map packLE).flatten
    ∧ ((updateRegion2 st x y w h rgb tEnd).writes.drop 1).flatten
        = (rgb.map packBE).flatten := by
  constructor
  · unfold updateRegion1
    rw [if_neg (by omega)]
    dsimp only
    rw [applyInversion_inv0 st x y w h rgb hinv]
    dsimp only
    rw [List.drop_succ_cons, List.drop_zero, ← hlen]
    exact pyChunks_flatten packLE (by decide) rgb.length rgb (le_refl _)
  · unfold updateRegion2
    rw [if_neg (by omega)]
    dsimp only
    rw [applyInversion_inv0 st x y w h rgb hinv]
    dsimp only
    rw [List.drop_succ_cons, List.drop_zero, ← hlen]
    exact pyChunks_flatten packBE (by decide) rgb.length rgb (le_refl _)

/-- C6 witness: a 2 by 1 update of a red pixel then a blue pixel sends
pixel bytes 0x00 0xF8 0x1F 0x00 on variant 1 (little endian) and
0xF8 0x00 0x00 0x1F on variant 2 (big endian). -/
theorem c6_pixel_wire_format_witness :
    ((updateRegion1 initState 0 0 2 1 [(255, 0, 0), (0, 0, 255)] 0).writes.drop 1).flatten
        = [0, 248, 31, 0]
    ∧ ((updateRegion2 initState 0 0 2 1 [(255, 0, 0), (0, 0, 255)] 0).writes.drop 1).flatten
        = [248, 0, 0, 31] := by
  have h := c6_pixel_wire_format initState 0 0 2 1 [(255, 0, 0), (0, 0, 255)] 0 rfl
    (by decide)
  exact ⟨h.1.trans (by decide), h.2.trans (by decide)⟩
